import Mathlib

/-!
Verification of the session and turn-history model of a browser chat client
(`src/App.tsx`).  The embedding below translates the TypeScript data model
and the pure state-transition logic of the component into Lean: message
logs, paired-turn history reconstruction, the session store operations
(create / select / rename / delete / append), citation stripping, the
localStorage rehydration logic, and the response-append step of the send
orchestrator.
-/

namespace RadiaChat

/-- The `role` field of a `Message`: the TS union type `"user" | "assistant"`. -/
inductive Role where
  | user
  | assistant
deriving Repr, DecidableEq, BEq

/-- `interface Message { id: string; role: "user" | "assistant"; text: string }`. -/
structure Message where
  id : String
  role : Role
  text : String
deriving Repr, DecidableEq

/-- The `inputs` field of a `ChatTurn`: `{ chat_input: string }`. -/
structure TurnInputs where
  chat_input : String
deriving Repr, DecidableEq

/-- The `outputs` field of a `ChatTurn`: `{ chat_output: string }`. -/
structure TurnOutputs where
  chat_output : String
deriving Repr, DecidableEq

/-- `interface ChatTurn { inputs: { chat_input: string }; outputs: { chat_output: string } }`. -/
structure ChatTurn where
  inputs : TurnInputs
  outputs : TurnOutputs
deriving Repr, DecidableEq

/-- `interface ChatSession { id: string; title: string; messages: Message[]; createdAt: string }`. -/
structure ChatSession where
  id : String
  title : String
  messages : List Message
  createdAt : String
deriving Repr, DecidableEq

/-- The loop body of `buildChatHistory`, with the mutable `pendingUser`
slot made explicit.  A `user` message overwrites the pending slot; an
`assistant` message with a pending user emits a turn and clears the slot;
an `assistant` message without a pending user is skipped. -/
def buildChatHistoryAux (pendingUser : Option Message) : List Message → List ChatTurn
  | [] => []
  | m :: rest =>
    match m.role with
    | Role.user => buildChatHistoryAux (some m) rest
    | Role.assistant =>
      match pendingUser with
      | some p => ⟨⟨p.text⟩, ⟨m.text⟩⟩ :: buildChatHistoryAux none rest
      | none => buildChatHistoryAux none rest

/-- `buildChatHistory(messages)`: fold the message log into paired turns,
starting with an empty pending slot. -/
def buildChatHistory (messages : List Message) : List ChatTurn :=
  buildChatHistoryAux none messages

/-- JS `String.prototype.trim()`: drop whitespace from both ends. -/
def jsTrim (s : String) : String :=
  (((s.toList.dropWhile Char.isWhitespace).reverse.dropWhile Char.isWhitespace).reverse).asString

/-- First index at which `needle` occurs as a contiguous sublist of the
second argument, the character-level meaning of JS `String.prototype.indexOf`. -/
def firstIndexOfAux (needle : List Char) : List Char → Option Nat
  | [] => if needle.isEmpty then some 0 else none
  | c :: rest =>
    if needle.isPrefixOf (c :: rest) then some 0
    else (firstIndexOfAux needle rest).map (· + 1)

/-- `raw.indexOf(t)` as an `Option Nat` (JS returns `-1` for "not found"). -/
def indexOfSubstr? (raw t : String) : Option Nat :=
  firstIndexOfAux t.toList raw.toList

/-- The token list of `stripCitations`:
`["\n\nCitations", "\nCitations", "\n\nSources", "\nSources"]`. -/
def citationTokens : List String :=
  ["\n\nCitations", "\nCitations", "\n\nSources", "\nSources"]

/-- The `for (const t of tokens)` loop of `stripCitations`: at the first
token that occurs in `raw`, return `raw.slice(0, idx).trim()`; if no token
occurs, return `raw.trim()`. -/
def stripCitationsAux (raw : String) : List String → String
  | [] => jsTrim raw
  | t :: rest =>
    match indexOfSubstr? raw t with
    | some idx => jsTrim ((raw.toList.take idx).asString)
    | none => stripCitationsAux raw rest

/-- `stripCitations(raw)`: cut off the trailing "Citations"/"Sources" section. -/
def stripCitations (raw : String) : String :=
  stripCitationsAux raw citationTokens

/-- Split a character list at every newline character (the line structure
JS code sees in a string). -/
def splitLinesAux : List Char → List (List Char)
  | [] => [[]]
  | c :: rest =>
    if c = '\n' then [] :: splitLinesAux rest
    else
      match splitLinesAux rest with
      | h :: t => (c :: h) :: t
      | [] => [[c]]

/-- The lines of a string, as strings. -/
def stringLines (s : String) : List String :=
  (splitLinesAux s.toList).map List.asString

/-- The citation-stripping rule as the spec words it (for comparison with
`stripCitations`): keep the text up to the FIRST occurrence of a marker,
where a marker is a whole line consisting of `"Citations"` or `"Sources"`;
with no marker the input is returned trimmed. -/
def specStripCitations (raw : String) : String :=
  let lines := stringLines raw
  match lines.findIdx? (fun l => l == "Citations" || l == "Sources") with
  | some i => jsTrim ((List.intercalate ['\n'] ((lines.take i).map String.toList)).asString)
  | none => jsTrim raw

/-- The session-store state of the `App` component: the `sessions` array
and the `activeSessionId` pointer (`string | null`). -/
structure AppState where
  sessions : List ChatSession
  activeSessionId : Option String
deriving Repr, DecidableEq

/-- The derived `activeSession`:
`sessions.find((s) => s.id === activeSessionId) ?? sessions[0]`.
JS `===` against a possibly-`null` pointer is `some s.id == activeSessionId`;
`sessions[0]` is `undefined` (here `none`) on an empty array. -/
def activeSession? (st : AppState) : Option ChatSession :=
  match st.sessions.find? (fun s => some s.id == st.activeSessionId) with
  | some s => some s
  | none => st.sessions.head?

/-- `newChat()`: build a fresh session (the fresh id and timestamp produced
by `crypto.randomUUID()` / `new Date()` are passed in as `fresh`), insert it
at the front, and make it active. -/
def newChat (st : AppState) (fresh : ChatSession) : AppState :=
  { sessions := fresh :: st.sessions, activeSessionId := some fresh.id }

/-- `() => setActiveSessionId(s.id)`, the click handler on a session row:
the pointer is set unconditionally. -/
def selectSession (st : AppState) (id : String) : AppState :=
  { st with activeSessionId := some id }

/-- `deleteSession(id)`: after the `window.confirm` guard (its outcome is
the `confirmed` argument), refuse to delete the last remaining chat;
otherwise filter the session out and, when it was the pointed-to session,
move the pointer to the first remaining session (or clear it). -/
def deleteSession (st : AppState) (id : String) (confirmed : Bool) : AppState :=
  if !confirmed then st
  else if st.sessions.length ≤ 1 then st
  else
    let filtered := st.sessions.filter (fun s => s.id != id)
    let ptr :=
      if st.activeSessionId == some id then
        match filtered.head? with
        | some s => some s.id
        | none => none
      else st.activeSessionId
    { sessions := filtered, activeSessionId := ptr }

/-- `renameSession(id)`: `promptResult` is what `window.prompt` returned
(`none` for cancel; JS also treats the empty string as falsy).  A non-empty
result is trimmed and replaces the title, falling back to the current title
when the trim is empty; the current title itself falls back to
`"New chat"` when the session is unknown or its title is empty. -/
def renameSession (sessions : List ChatSession) (id : String) (promptResult : Option String) :
    List ChatSession :=
  let currentTitle :=
    match sessions.find? (fun s => s.id == id) with
    | some s => if s.title = "" then "New chat" else s.title
    | none => "New chat"
  match promptResult with
  | none => sessions
  | some newTitle =>
    if newTitle = "" then sessions
    else
      sessions.map fun s =>
        if s.id == id then
          { s with title := if jsTrim newTitle = "" then currentTitle else jsTrim newTitle }
        else s

/-- `trimmed.slice(0, 40) || "New chat"`: the auto-title derived from the
first message's text. -/
def autoTitle (trimmed : String) : String :=
  let t := (trimmed.toList.take 40).asString
  if t = "" then "New chat" else t

/-- The optimistic update of `sendMessage`: append the user message to the
session whose id was captured at send-start, and set the auto-title when
this is the session's first message. -/
def optimisticAppend (sessions : List ChatSession) (targetId : String) (trimmed : String)
    (userMsg : Message) : List ChatSession :=
  sessions.map fun s =>
    if s.id == targetId then
      { s with
        title := if s.messages.length = 0 then autoTitle trimmed else s.title,
        messages := s.messages ++ [userMsg] }
    else s

/-- The outcome of the `fetch` round trip of `sendMessage`: a usable
payload (with the raw answer text already extracted from it), a non-2xx
response carrying status and body text, or a thrown transport error. -/
inductive SendOutcome where
  | success (rawAnswer : String)
  | httpError (status : Nat) (body : String)
  | transportError
deriving Repr, DecidableEq

/-- The text of the assistant message `sendMessage` appends for each
outcome: `stripCitations(rawAnswer)` on success,
`` `Server error ${resp.status}: ${text.slice(0, 200)}` `` on a non-2xx
response, and the fixed unreachable-server message on a thrown error. -/
def responseText : SendOutcome → String
  | SendOutcome.success rawAnswer => stripCitations rawAnswer
  | SendOutcome.httpError status body =>
      "Server error " ++ toString status ++ ": " ++ (body.toList.take 200).asString
  | SendOutcome.transportError => "Sorry, I couldn't reach the server."

/-- The response-append step of `sendMessage`: every outcome branch runs
`setSessions(prev => prev.map(s => s.id === activeSession.id ? {...s,
messages: [...s.messages, msg]} : s))`, keyed by the session id captured
at send-start (`capturedId`), not by the current pointer. -/
def appendResponse (st : AppState) (capturedId : String) (msgId : String)
    (outcome : SendOutcome) : AppState :=
  { st with
    sessions := st.sessions.map fun s =>
      if s.id == capturedId then
        { s with messages := s.messages ++ [⟨msgId, Role.assistant, responseText outcome⟩] }
      else s }

/-- Look a session up by id (`sessions.find(s => s.id === id)`). -/
def sessionById (st : AppState) (id : String) : Option ChatSession :=
  st.sessions.find? (fun s => s.id == id)

/-- One user-initiated session-store operation. -/
inductive SessionOp where
  | create (fresh : ChatSession)
  | delete (id : String) (confirmed : Bool)
  | select (id : String)
deriving Repr, DecidableEq

/-- Apply one operation to the store. -/
def applyOp (st : AppState) : SessionOp → AppState
  | SessionOp.create fresh => newChat st fresh
  | SessionOp.delete id confirmed => deleteSession st id confirmed
  | SessionOp.select id => selectSession st id

/-- Apply a sequence of operations, oldest first. -/
def applyOps (st : AppState) (ops : List SessionOp) : AppState :=
  ops.foldl applyOp st

/-- `opsFresh used ops` holds when every created session's id is fresh:
distinct from every id in `used` and from every id created earlier in the
sequence.  This models `crypto.randomUUID()` never repeating an id. -/
def opsFresh (used : List String) : List SessionOp → Bool
  | [] => true
  | SessionOp.create fresh :: ops => !used.contains fresh.id && opsFresh (fresh.id :: used) ops
  | SessionOp.delete _ _ :: ops => opsFresh used ops
  | SessionOp.select _ :: ops => opsFresh used ops

/-- The fragment of JSON values the persistence layer traffics in.
`JSON.parse`/`JSON.stringify` are the browser's; they are modelled as the
identity round trip on this tree, so the stored value is represented by
its parse outcome. -/
inductive Json where
  | str (s : String)
  | arr (xs : List Json)
  | obj (fields : List (String × Json))

/-- The JSON-string value of a `role`. -/
def roleToString : Role → String
  | Role.user => "user"
  | Role.assistant => "assistant"

/-- Read a `role` back from its JSON string. -/
def roleOfString? : String → Option Role
  | "user" => some Role.user
  | "assistant" => some Role.assistant
  | _ => none

/-- `JSON.stringify`'s view of a `Message`. -/
def messageToJson (m : Message) : Json :=
  Json.obj [("id", Json.str m.id), ("role", Json.str (roleToString m.role)),
            ("text", Json.str m.text)]

/-- `JSON.stringify`'s view of a `ChatSession`. -/
def sessionToJson (s : ChatSession) : Json :=
  Json.obj [("id", Json.str s.id), ("title", Json.str s.title),
            ("messages", Json.arr (s.messages.map messageToJson)),
            ("createdAt", Json.str s.createdAt)]

/-- `JSON.stringify`'s view of the session list. -/
def sessionsToJson (ss : List ChatSession) : Json :=
  Json.arr (ss.map sessionToJson)

/-- Reading a parsed JSON value back as a `Message` (the untyped
`as ChatSession[]` cast, made explicit as a structural reading). -/
def messageOfJson? : Json → Option Message
  | Json.obj [("id", Json.str i), ("role", Json.str r), ("text", Json.str t)] =>
      (roleOfString? r).map fun ro => ⟨i, ro, t⟩
  | _ => none

/-- Read a list of messages back from JSON values. -/
def messagesOfJson? : List Json → Option (List Message)
  | [] => some []
  | j :: rest =>
    match messageOfJson? j, messagesOfJson? rest with
    | some m, some ms => some (m :: ms)
    | _, _ => none

/-- Reading a parsed JSON value back as a `ChatSession`. -/
def sessionOfJson? : Json → Option ChatSession
  | Json.obj [("id", Json.str i), ("title", Json.str t),
              ("messages", Json.arr ms), ("createdAt", Json.str c)] =>
      (messagesOfJson? ms).map fun l => ⟨i, t, l, c⟩
  | _ => none

/-- Read a list of sessions back from JSON values. -/
def sessionListOfJson? : List Json → Option (List ChatSession)
  | [] => some []
  | j :: rest =>
    match sessionOfJson? j, sessionListOfJson? rest with
    | some s, some ss => some (s :: ss)
    | _, _ => none

/-- Reading a parsed JSON value back as a `ChatSession[]`. -/
def sessionsOfJson? : Json → Option (List ChatSession)
  | Json.arr l => sessionListOfJson? l
  | _ => none

/-- The session a fresh start seeds:
`{ id: crypto.randomUUID(), title: "New chat", messages: [], createdAt: new Date().toISOString() }`
(the fresh id and timestamp are passed in). -/
def freshSession (freshId now : String) : ChatSession :=
  ⟨freshId, "New chat", [], now⟩

/-- The `useState<ChatSession[]>` initializer: the stored value is `none`
when the key is missing (or the string empty, which JS treats as falsy),
`some (Except.error ())` when `JSON.parse` throws, and
`some (Except.ok j)` when it parses to `j`.  The parsed value is kept only
when `Array.isArray(parsed) && parsed.length > 0`; every other case falls
back to a single fresh session, and no case is an error. -/
def initSessionsJson (stored : Option (Except Unit Json)) (freshId now : String) : Json :=
  match stored with
  | some (Except.ok (Json.arr l)) =>
    if l.length > 0 then Json.arr l
    else Json.arr [sessionToJson (freshSession freshId now)]
  | _ => Json.arr [sessionToJson (freshSession freshId now)]

/-- A log consisting only of user messages yields no turns, whatever the
pending slot holds. -/
lemma buildChatHistoryAux_all_user (ms : List Message)
    (h : ∀ m ∈ ms, m.role = Role.user) (pending : Option Message) :
    buildChatHistoryAux pending ms = [] := by
  induction ms generalizing pending with
  | nil => rfl
  | cons m rest ih =>
    have hm := h m (List.mem_cons_self _ _)
    simp only [buildChatHistoryAux, hm]
    exact ih (fun x hx => h x (List.mem_cons_of_mem _ hx)) (some m)

/-- The texts the pending slot contributes to the user-message pool. -/
def pendingTexts : Option Message → List String
  | none => []
  | some p => [p.text]

/-- The questions of the turns produced from any pending slot and log form
a sublist of the pending text followed by the texts of the log's user
messages. -/
lemma buildChatHistoryAux_questions_sublist (ms : List Message) :
    ∀ pending : Option Message,
      ((buildChatHistoryAux pending ms).map (fun t => t.inputs.chat_input)).Sublist
        (pendingTexts pending ++ (ms.filter (fun m => m.role == Role.user)).map Message.text) := by
  induction ms with
  | nil =>
    intro pending
    simp [buildChatHistoryAux]
  | cons m rest ih =>
    intro pending
    rcases hrole : m.role with _ | _
    · have h1 := ih (some m)
      simp only [pendingTexts] at h1
      simp only [buildChatHistoryAux, hrole, List.filter_cons, beq_self_eq_true, if_true,
        List.map_cons]
      exact h1.trans (List.sublist_append_right _ _)
    · rcases pending with _ | p
      · have h1 := ih none
        simp only [pendingTexts, List.nil_append] at h1
        simpa only [buildChatHistoryAux, hrole, List.filter_cons, pendingTexts,
          List.nil_append] using h1
      · have h1 := ih none
        simp only [pendingTexts, List.nil_append] at h1
        simp only [buildChatHistoryAux, hrole, List.filter_cons, pendingTexts, List.map_cons,
          List.cons_append, List.nil_append]
        exact h1.cons₂ _

/-- C1: `buildChatHistory` scans the log keeping one pending-user slot: a
user message overwrites the slot without emitting a turn; an assistant
message with a pending user emits the turn `{question: pending.text,
answer: this.text}` and clears the slot; an assistant message with no
pending user emits nothing.  Consequently an empty log and an all-user log
yield no turns, and `[U:"a", A:"b", U:"c", A:"d"]` yields the two turns
`{a,b}` and `{c,d}`. -/
theorem buildChatHistory_pending_slot_behavior :
    (∀ (pending : Option Message) (u : Message) (rest : List Message), u.role = Role.user →
      buildChatHistoryAux pending (u :: rest) = buildChatHistoryAux (some u) rest) ∧
    (∀ (p a : Message) (rest : List Message), a.role = Role.assistant →
      buildChatHistoryAux (some p) (a :: rest) =
        ⟨⟨p.text⟩, ⟨a.text⟩⟩ :: buildChatHistoryAux none rest) ∧
    (∀ (a : Message) (rest : List Message), a.role = Role.assistant →
      buildChatHistoryAux none (a :: rest) = buildChatHistoryAux none rest) ∧
    buildChatHistory [] = [] ∧
    (∀ ms : List Message, (∀ m ∈ ms, m.role = Role.user) → buildChatHistory ms = []) ∧
    buildChatHistory [⟨"m1", Role.user, "a"⟩, ⟨"m2", Role.assistant, "b"⟩,
        ⟨"m3", Role.user, "c"⟩, ⟨"m4", Role.assistant, "d"⟩] =
      [⟨⟨"a"⟩, ⟨"b"⟩⟩, ⟨⟨"c"⟩, ⟨"d"⟩⟩] := by
  refine ⟨?_, ?_, ?_, rfl, ?_, rfl⟩
  · intro pending u rest hu
    simp [buildChatHistoryAux, hu]
  · intro p a rest ha
    simp [buildChatHistoryAux, ha]
  · intro a rest ha
    simp [buildChatHistoryAux, ha]
  · intro ms h
    exact buildChatHistoryAux_all_user ms h none

/-- C1 witness: the all-user conjunct applied to a concrete two-user log. -/
theorem buildChatHistory_pending_slot_behavior_witness :
    buildChatHistory [⟨"m1", Role.user, "a"⟩, ⟨"m2", Role.user, "b"⟩] = [] :=
  buildChatHistory_pending_slot_behavior.2.2.2.2.1
    [⟨"m1", Role.user, "a"⟩, ⟨"m2", Role.user, "b"⟩] (by decide)

/-- C9: the questions of the turns `buildChatHistory` emits form a sublist
of the texts of the log's user messages — each question comes from a user
message, distinct turns come from distinct user-message occurrences, the
original relative order is preserved — and the number of turns never
exceeds the number of user messages. -/
theorem buildChatHistory_questions_from_user_messages (ms : List Message) :
    ((buildChatHistory ms).map (fun t => t.inputs.chat_input)).Sublist
      ((ms.filter (fun m => m.role == Role.user)).map Message.text) ∧
    (buildChatHistory ms).length ≤ (ms.filter (fun m => m.role == Role.user)).length := by
  have h := buildChatHistoryAux_questions_sublist ms none
  simp only [pendingTexts, List.nil_append] at h
  refine ⟨h, ?_⟩
  have hlen := h.length_le
  simpa using hlen

/-- The ids of a session list. -/
def idsOf (l : List ChatSession) : List String := l.map ChatSession.id

/-- `deleteSession` on a list of at least two sessions with duplicate-free
ids cannot empty the list. -/
lemma filter_ne_nil_of_two_le (l : List ChatSession) (id : String)
    (hlen : 2 ≤ l.length) (hnd : (idsOf l).Nodup) :
    l.filter (fun s => s.id != id) ≠ [] := by
  intro hnil
  match l, hlen with
  | a :: b :: t, _ =>
    have hall := List.filter_eq_nil_iff.mp hnil
    have ha : a.id = id := by
      have := hall a (by simp)
      simpa using this
    have hb : b.id = id := by
      have := hall b (by simp)
      simpa using this
    have : a.id ≠ b.id := by
      simp only [idsOf, List.map_cons, List.nodup_cons] at hnd
      exact fun h => hnd.1 (by simp [h])
    exact this (ha.trans hb.symm)

/-- Filtering preserves duplicate-freeness of the ids. -/
lemma idsOf_filter_nodup (l : List ChatSession) (p : ChatSession → Bool)
    (hnd : (idsOf l).Nodup) : (idsOf (l.filter p)).Nodup :=
  List.Nodup.sublist ((l.filter_sublist).map ChatSession.id) hnd

/-- State facts preserved by one `deleteSession` call: the session list
stays non-empty, its ids stay duplicate-free, and no new id appears. -/
lemma deleteSession_preserves (st : AppState) (id : String) (c : Bool)
    (h1 : st.sessions ≠ []) (h2 : (idsOf st.sessions).Nodup) :
    (deleteSession st id c).sessions ≠ [] ∧
    (idsOf (deleteSession st id c).sessions).Nodup ∧
    ∀ i ∈ idsOf (deleteSession st id c).sessions, i ∈ idsOf st.sessions := by
  cases c with
  | false => simp [deleteSession]; exact ⟨h1, h2⟩
  | true =>
    by_cases hlen : st.sessions.length ≤ 1
    · simp [deleteSession, hlen]; exact ⟨h1, h2⟩
    · have h2le : 2 ≤ st.sessions.length := by omega
      refine ⟨?_, ?_, ?_⟩
      · simpa [deleteSession, hlen] using filter_ne_nil_of_two_le st.sessions id h2le h2
      · simpa [deleteSession, hlen] using idsOf_filter_nodup st.sessions _ h2
      · intro i hi
        simp only [deleteSession, hlen, if_false, Bool.not_true] at hi
        simp only [idsOf, List.mem_map] at hi ⊢
        obtain ⟨s, hs, hsi⟩ := hi
        exact ⟨s, List.mem_of_mem_filter hs, hsi⟩

/-- A non-empty store always has a derived active session, and it is a
member of the collection. -/
lemma activeSession?_mem (st : AppState) (h : st.sessions ≠ []) :
    ∃ s, activeSession? st = some s ∧ s ∈ st.sessions := by
  unfold activeSession?
  cases hf : st.sessions.find? (fun s => some s.id == st.activeSessionId) with
  | some s => exact ⟨s, rfl, List.mem_of_find?_eq_some hf⟩
  | none =>
    match hs : st.sessions, h with
    | a :: t, _ => exact ⟨a, rfl, List.mem_cons_self _ _⟩

/-- Applying any admissible operation sequence preserves non-emptiness and
duplicate-freeness of the session ids. -/
lemma applyOps_preserves (ops : List SessionOp) :
    ∀ (st : AppState) (used : List String),
      st.sessions ≠ [] → (idsOf st.sessions).Nodup →
      (∀ i ∈ idsOf st.sessions, i ∈ used) →
      opsFresh used ops = true →
      (applyOps st ops).sessions ≠ [] ∧ (idsOf (applyOps st ops).sessions).Nodup := by
  induction ops with
  | nil =>
    intro st used h1 h2 _ _
    exact ⟨h1, h2⟩
  | cons op rest ih =>
    intro st used h1 h2 hsub hfresh
    have hstep : applyOps st (op :: rest) = applyOps (applyOp st op) rest := rfl
    rw [hstep]
    cases op with
    | create fresh =>
      simp only [opsFresh, Bool.and_eq_true, Bool.not_eq_true'] at hfresh
      obtain ⟨hnotused, hrest⟩ := hfresh
      have hnotmem : fresh.id ∉ idsOf st.sessions := by
        intro hmem
        have h' : used.contains fresh.id = true := List.elem_iff.mpr (hsub _ hmem)
        rw [h'] at hnotused
        simp at hnotused
      refine ih (applyOp st (SessionOp.create fresh)) (fresh.id :: used) (by simp [applyOp, newChat]) ?_ ?_ hrest
      · show (idsOf (fresh :: st.sessions)).Nodup
        rw [idsOf, List.map_cons, List.nodup_cons]
        exact ⟨hnotmem, h2⟩
      · intro i hi
        simp only [applyOp, newChat, idsOf, List.map_cons, List.mem_cons] at hi
        cases hi with
        | inl h => simp [h]
        | inr h => exact List.mem_cons_of_mem _ (hsub i h)
    | delete id c =>
      obtain ⟨hne, hnd, hids⟩ := deleteSession_preserves st id c h1 h2
      exact ih _ used hne hnd (fun i hi => hsub i (hids i hi)) hfresh
    | select id =>
      exact ih _ used h1 h2 hsub hfresh

/-- A sequence of `deleteSession` calls, oldest first; each call carries
the target id and the `window.confirm` outcome. -/
def applyDeletes (st : AppState) (dels : List (String × Bool)) : AppState :=
  dels.foldl (fun st d => deleteSession st d.1 d.2) st

/-- C2: `deleteSession(id)` is a no-op when exactly one session remains —
sessions and pointer are both unchanged — and consequently no sequence of
`deleteSession` calls starting from a non-empty collection (with the
store's unique-id invariant) ever empties the collection. -/
theorem deleteSession_last_session_invariant (st : AppState) (dels : List (String × Bool))
    (h1 : st.sessions ≠ []) (h2 : (idsOf st.sessions).Nodup) :
    (∀ id c, st.sessions.length = 1 → deleteSession st id c = st) ∧
    (applyDeletes st dels).sessions ≠ [] := by
  constructor
  · intro id c hlen
    cases c with
    | false => simp [deleteSession]
    | true => simp [deleteSession, hlen]
  · induction dels generalizing st with
    | nil => exact h1
    | cons d rest ih =>
      obtain ⟨hne, hnd, _⟩ := deleteSession_preserves st d.1 d.2 h1 h2
      exact ih (deleteSession st d.1 d.2) hne hnd

/-- C2 witness: in a two-session store, deleting down to one session and
then deleting again never empties the collection, and the single-session
no-op holds on the one-session store. -/
theorem deleteSession_last_session_invariant_witness :
    (⟨[⟨"s1", "New chat", [], "t1"⟩], some "s1"⟩ : AppState).sessions ≠ [] ∧
    (idsOf (⟨[⟨"s1", "New chat", [], "t1"⟩], some "s1"⟩ : AppState).sessions).Nodup ∧
    ((∀ id c, (⟨[⟨"s1", "New chat", [], "t1"⟩], some "s1"⟩ : AppState).sessions.length = 1 →
        deleteSession ⟨[⟨"s1", "New chat", [], "t1"⟩], some "s1"⟩ id c =
          ⟨[⟨"s1", "New chat", [], "t1"⟩], some "s1"⟩) ∧
      (applyDeletes ⟨[⟨"s1", "New chat", [], "t1"⟩], some "s1"⟩
          [("s1", true), ("s1", true)]).sessions ≠ []) :=
  ⟨by decide, by decide,
    deleteSession_last_session_invariant ⟨[⟨"s1", "New chat", [], "t1"⟩], some "s1"⟩
      [("s1", true), ("s1", true)] (by decide) (by decide)⟩

/-- C3: after any admissible sequence of create / delete / select
operations on a non-empty store with duplicate-free ids, the derived
`activeSession` exists and is a member of the collection. -/
theorem active_session_coherence (st : AppState) (ops : List SessionOp)
    (h1 : st.sessions ≠ []) (h2 : (idsOf st.sessions).Nodup)
    (h3 : opsFresh (idsOf st.sessions) ops = true) :
    ∃ s, activeSession? (applyOps st ops) = some s ∧ s ∈ (applyOps st ops).sessions := by
  have hpres := applyOps_preserves ops st (idsOf st.sessions) h1 h2 (fun i hi => hi) h3
  exact activeSession?_mem _ hpres.1

/-- C3 witness: a concrete run that creates a session, selects an unknown
id, and deletes the original session still has a coherent active session. -/
theorem active_session_coherence_witness :
    opsFresh (idsOf [⟨"s1", "New chat", [], "t1"⟩])
        [SessionOp.create ⟨"s2", "New chat", [], "t2"⟩, SessionOp.select "zzz",
          SessionOp.delete "s1" true] = true ∧
    ∃ s, activeSession? (applyOps ⟨[⟨"s1", "New chat", [], "t1"⟩], some "s1"⟩
          [SessionOp.create ⟨"s2", "New chat", [], "t2"⟩, SessionOp.select "zzz",
            SessionOp.delete "s1" true]) = some s ∧
        s ∈ (applyOps ⟨[⟨"s1", "New chat", [], "t1"⟩], some "s1"⟩
          [SessionOp.create ⟨"s2", "New chat", [], "t2"⟩, SessionOp.select "zzz",
            SessionOp.delete "s1" true]).sessions :=
  ⟨by decide,
    active_session_coherence ⟨[⟨"s1", "New chat", [], "t1"⟩], some "s1"⟩
      [SessionOp.create ⟨"s2", "New chat", [], "t2"⟩, SessionOp.select "zzz",
        SessionOp.delete "s1" true] (by decide) (by decide) (by decide)⟩

/-- With duplicate-free ids, `find?` on the id predicate returns exactly
the member carrying that id. -/
lemma find?_id_eq_of_nodup (l : List ChatSession) (s : ChatSession) (id : String)
    (hnd : (idsOf l).Nodup) (hmem : s ∈ l) (hid : s.id = id) :
    l.find? (fun x => x.id == id) = some s := by
  induction l with
  | nil => cases hmem
  | cons a t ih =>
    simp only [idsOf, List.map_cons, List.nodup_cons] at hnd
    by_cases ha : a.id = id
    · have hsa : s = a := by
        rcases List.mem_cons.mp hmem with h | h
        · exact h
        · exfalso
          exact hnd.1 (by
            rw [ha, ← hid]
            exact List.mem_map.mpr ⟨s, h, rfl⟩)
      rw [hsa]
      simp [List.find?, ha]
    · have hst : s ∈ t := by
        rcases List.mem_cons.mp hmem with h | h
        · exact absurd (h ▸ hid) ha
        · exact h
      have : (a.id == id) = false := by
        simp [ha]
      simp only [List.find?, this]
      exact ih hnd.2 hst

/-- C10: when `deleteSession(id)` actually removes a session (confirmed,
more than one session, id present), the result is exactly the original
list with that one session filtered out — the others unchanged and in
order, the length drops by one — and when the removed session is not the
derived active session, the pointer is unchanged. -/
theorem deleteSession_frame (st : AppState) (id : String) (s : ChatSession)
    (hlen : 1 < st.sessions.length) (hnd : (idsOf st.sessions).Nodup)
    (hmem : s ∈ st.sessions) (hid : s.id = id) :
    (deleteSession st id true).sessions = st.sessions.filter (fun x => x.id != id) ∧
    (deleteSession st id true).sessions.length + 1 = st.sessions.length ∧
    (activeSession? st ≠ some s →
      (deleteSession st id true).activeSessionId = st.activeSessionId) := by
  have hnotle : ¬ st.sessions.length ≤ 1 := by omega
  refine ⟨by simp [deleteSession, hnotle], ?_, ?_⟩
  · have hcount : ∀ (l : List ChatSession), (idsOf l).Nodup → s ∈ l →
        (l.filter (fun x => x.id != id)).length + 1 = l.length := by
      intro l
      induction l with
      | nil => intro _ h; cases h
      | cons a t ih =>
        intro hnd' hmem'
        simp only [idsOf, List.map_cons, List.nodup_cons] at hnd'
        by_cases ha : a.id = id
        · have hfa : (a.id != id) = false := by simp [ha]
          have htall : ∀ x ∈ t, (x.id != id) = true := by
            intro x hx
            have : x.id ≠ id := by
              intro hxid
              exact hnd'.1 (by
                rw [ha, ← hxid]
                exact List.mem_map.mpr ⟨x, hx, rfl⟩)
            simp [this]
          rw [List.filter_cons, hfa]
          simp only [Bool.false_eq_true, if_false, List.length_cons]
          rw [List.filter_eq_self.mpr htall]
        · have hst : s ∈ t := by
            rcases List.mem_cons.mp hmem' with h | h
            · exact absurd (h ▸ hid) ha
            · exact h
          have hfa : (a.id != id) = true := by simp [ha]
          rw [List.filter_cons, hfa]
          simp only [if_true, List.length_cons]
          rw [← ih hnd'.2 hst]
    have := hcount st.sessions hnd hmem
    simpa [deleteSession, hnotle] using this
  · intro hact
    have hptr : st.activeSessionId ≠ some id := by
      intro hp
      apply hact
      have hfind : st.sessions.find? (fun x => some x.id == st.activeSessionId) = some s := by
        have hpred : (fun (x : ChatSession) => some x.id == st.activeSessionId) =
            (fun x => x.id == id) := by
          funext x
          rw [hp]
          rfl
        rw [hpred]
        exact find?_id_eq_of_nodup st.sessions s id hnd hmem hid
      simp [activeSession?, hfind]
    have hbeq : (st.activeSessionId == some id) = false := by
      simp [hptr]
    simp [deleteSession, hnotle, hbeq]

/-- C10 witness: deleting the non-active second session of a two-session
store removes exactly it and leaves the pointer alone. -/
theorem deleteSession_frame_witness :
    (1 < ([⟨"s1", "New chat", [], "t1"⟩, ⟨"s2", "Other", [], "t2"⟩] : List ChatSession).length) ∧
    ((deleteSession ⟨[⟨"s1", "New chat", [], "t1"⟩, ⟨"s2", "Other", [], "t2"⟩], some "s1"⟩
        "s2" true).sessions =
      ([⟨"s1", "New chat", [], "t1"⟩, ⟨"s2", "Other", [], "t2"⟩] : List ChatSession).filter
        (fun x => x.id != "s2") ∧
      (deleteSession ⟨[⟨"s1", "New chat", [], "t1"⟩, ⟨"s2", "Other", [], "t2"⟩], some "s1"⟩
          "s2" true).sessions.length + 1 =
        ([⟨"s1", "New chat", [], "t1"⟩, ⟨"s2", "Other", [], "t2"⟩] : List ChatSession).length ∧
      (activeSession? ⟨[⟨"s1", "New chat", [], "t1"⟩, ⟨"s2", "Other", [], "t2"⟩], some "s1"⟩ ≠
          some ⟨"s2", "Other", [], "t2"⟩ →
        (deleteSession ⟨[⟨"s1", "New chat", [], "t1"⟩, ⟨"s2", "Other", [], "t2"⟩], some "s1"⟩
            "s2" true).activeSessionId =
          (⟨[⟨"s1", "New chat", [], "t1"⟩, ⟨"s2", "Other", [], "t2"⟩], some "s1"⟩ :
            AppState).activeSessionId)) :=
  ⟨by decide,
    deleteSession_frame ⟨[⟨"s1", "New chat", [], "t1"⟩, ⟨"s2", "Other", [], "t2"⟩], some "s1"⟩
      "s2" ⟨"s2", "Other", [], "t2"⟩ (by decide) (by decide) (by decide) (by decide)⟩

/-- C4 counterexample: the title auto-set checks only
`s.messages.length === 0`, never whether the title is still the default.
An empty session renamed to `"Custom"` has its title overwritten by its
first message's text, contradicting the claim that a renamed title is
kept. -/
theorem first_message_overwrites_renamed_title :
    renameSession [⟨"s1", "New chat", [], "t1"⟩] "s1" (some "Custom") =
      [⟨"s1", "Custom", [], "t1"⟩] ∧
    (optimisticAppend [⟨"s1", "Custom", [], "t1"⟩] "s1" "hello"
        ⟨"m1", Role.user, "hello"⟩).map ChatSession.title = ["hello"] ∧
    ("hello" : String) ≠ "Custom" := by
  decide

/-- C4 amended: appending the first message to a session sets its title to
the message text truncated to at most 40 characters (`"New chat"` when the
truncation is empty) regardless of the current title — a renamed title is
overwritten too — while appending to a session that already has messages
never changes the title; sessions with other ids are untouched. -/
theorem first_message_title_rule (sessions : List ChatSession) (targetId trimmed : String)
    (msg : Message) :
    (∀ s ∈ sessions, s.id = targetId →
      (s.messages = [] →
        { s with title := autoTitle trimmed, messages := [msg] } ∈
          optimisticAppend sessions targetId trimmed msg) ∧
      (s.messages ≠ [] →
        { s with messages := s.messages ++ [msg] } ∈
          optimisticAppend sessions targetId trimmed msg)) ∧
    (∀ s ∈ sessions, s.id ≠ targetId → s ∈ optimisticAppend sessions targetId trimmed msg) ∧
    (∀ t : String, (autoTitle t).length ≤ 40) ∧
    (∀ t : String, (t.toList.take 40).asString = "" → autoTitle t = "New chat") := by
  refine ⟨?_, ?_, ?_, ?_⟩
  · intro s hs hid
    have hbeq : (s.id == targetId) = true := by simp [hid]
    constructor
    · intro hempty
      refine List.mem_map.mpr ⟨s, hs, ?_⟩
      simp [hbeq, hempty]
    · intro hne
      refine List.mem_map.mpr ⟨s, hs, ?_⟩
      have hlen : s.messages.length ≠ 0 := by
        simpa [List.length_eq_zero] using hne
      simp [hbeq, hlen]
  · intro s hs hid
    have hbeq : (s.id == targetId) = false := by simp [hid]
    refine List.mem_map.mpr ⟨s, hs, ?_⟩
    simp [optimisticAppend, hbeq]
  · intro t
    show (if (t.toList.take 40).asString = "" then "New chat"
      else (t.toList.take 40).asString).length ≤ 40
    split
    · decide
    · show (t.toList.take 40).asString.length ≤ 40
      have h : ((t.toList.take 40).asString).length = (t.toList.take 40).length := rfl
      rw [h, List.length_take]
      omega
  · intro t hempty
    show (if (t.toList.take 40).asString = "" then "New chat"
      else (t.toList.take 40).asString) = "New chat"
    split
    · rfl
    · next h => exact absurd hempty h

/-- C4 amended witness: appending `"hello"` as first message to the
renamed session `"s1"` yields the session retitled `"hello"`. -/
theorem first_message_title_rule_witness :
    ({ id := "s1", title := autoTitle "hello",
       messages := [⟨"m1", Role.user, "hello"⟩], createdAt := "t1" } : ChatSession) ∈
      optimisticAppend [⟨"s1", "Custom", [], "t1"⟩] "s1" "hello" ⟨"m1", Role.user, "hello"⟩ :=
  ((first_message_title_rule [⟨"s1", "Custom", [], "t1"⟩] "s1" "hello"
      ⟨"m1", Role.user, "hello"⟩).1 ⟨"s1", "Custom", [], "t1"⟩ (by decide) (by decide)).1
    (by decide)

/-- C5 counterexample: `stripCitations` tries the tokens in a fixed
priority order, so a later `"\n\nCitations"` occurrence wins over an
earlier `"\nSources"` line, keeping text the spec's first-marker rule
would drop. -/
theorem stripCitations_not_first_marker :
    stripCitations "A\nSources\nB\n\nCitations\nC" = "A\nSources\nB" ∧
    specStripCitations "A\nSources\nB\n\nCitations\nC" = "A" ∧
    stripCitations "A\nSources\nB\n\nCitations\nC" ≠
      specStripCitations "A\nSources\nB\n\nCitations\nC" := by
  decide

/-- C5 amended: `stripCitations` checks the tokens `"\n\nCitations"`,
`"\nCitations"`, `"\n\nSources"`, `"\nSources"` in that priority order and
cuts at the first occurrence of the first token present (so the cut point
is not the positionally first marker, and a token need only follow a
newline rather than form a whole line); with no token present the input is
returned trimmed.  The spec's worked example still strips to
`"Answer text"`. -/
theorem stripCitations_token_priority :
    stripCitations "Answer text\n\nCitations\n[1] foo" = "Answer text" ∧
    stripCitations "A\nSources\nB\n\nCitations\nC" = "A\nSources\nB" ∧
    stripCitations "abc\nSourcesXYZ" = "abc" ∧
    (∀ raw idx, indexOfSubstr? raw "\n\nCitations" = some idx →
      stripCitations raw = jsTrim ((raw.toList.take idx).asString)) ∧
    (∀ raw, (∀ t ∈ citationTokens, indexOfSubstr? raw t = none) →
      stripCitations raw = jsTrim raw) := by
  refine ⟨by decide, by decide, by decide, ?_, ?_⟩
  · intro raw idx h
    simp [stripCitations, citationTokens, stripCitationsAux, h]
  · intro raw h
    have h1 := h "\n\nCitations" (by simp [citationTokens])
    have h2 := h "\nCitations" (by simp [citationTokens])
    have h3 := h "\n\nSources" (by simp [citationTokens])
    have h4 := h "\nSources" (by simp [citationTokens])
    simp [stripCitations, citationTokens, stripCitationsAux, h1, h2, h3, h4]

/-- C5 amended witness: a marker-free input is returned trimmed. -/
theorem stripCitations_token_priority_witness :
    stripCitations "  no markers here  " = jsTrim "  no markers here  " :=
  stripCitations_token_priority.2.2.2.2 "  no markers here  " (by decide)

/-- C8 counterexample: the select handler is an unconditional
`setActiveSessionId(s.id)`; selecting an id absent from the collection is
not a no-op — the pointer goes stale and the derived active session falls
back to the first session, changing it from `"s2"` to `"s1"`. -/
theorem selectSession_unknown_id_not_noop :
    selectSession ⟨[⟨"s1", "A", [], "t1"⟩, ⟨"s2", "B", [], "t2"⟩], some "s2"⟩ "zzz" ≠
      ⟨[⟨"s1", "A", [], "t1"⟩, ⟨"s2", "B", [], "t2"⟩], some "s2"⟩ ∧
    activeSession? (selectSession ⟨[⟨"s1", "A", [], "t1"⟩, ⟨"s2", "B", [], "t2"⟩],
        some "s2"⟩ "zzz") = some ⟨"s1", "A", [], "t1"⟩ ∧
    activeSession? ⟨[⟨"s1", "A", [], "t1"⟩, ⟨"s2", "B", [], "t2"⟩], some "s2"⟩ =
      some ⟨"s2", "B", [], "t2"⟩ := by
  decide

/-- C8 amended: `selectSession(id)` always sets the pointer to `id` and
never touches the collection or throws; when a session with that id
exists, the derived active session becomes the first such session, and
when none exists the stale pointer makes the derived active session fall
back to the first session. -/
theorem selectSession_behavior (st : AppState) (id : String) :
    (selectSession st id).sessions = st.sessions ∧
    (selectSession st id).activeSessionId = some id ∧
    activeSession? (selectSession st id) =
      (match st.sessions.find? (fun s => s.id == id) with
        | some s => some s
        | none => st.sessions.head?) := by
  exact ⟨rfl, rfl, rfl⟩

/-- C6: whatever the outcome of the round trip — stripped answer, non-2xx
error text, or transport-error text — the resulting assistant message is
appended to the session whose id was captured at send-start, even after
the active pointer has been switched to another session: the pointer stays
on the other session, the captured session gains exactly the one message,
and every session with a different id is untouched. -/
theorem response_targets_captured_session (st : AppState)
    (capturedId otherId msgId : String) (oc : SendOutcome) :
    (appendResponse (selectSession st otherId) capturedId msgId oc).activeSessionId =
      some otherId ∧
    sessionById (appendResponse (selectSession st otherId) capturedId msgId oc) capturedId =
      (sessionById st capturedId).map
        (fun s => { s with
          messages := s.messages ++ [⟨msgId, Role.assistant, responseText oc⟩] }) ∧
    (∀ s ∈ st.sessions, s.id ≠ capturedId →
      s ∈ (appendResponse (selectSession st otherId) capturedId msgId oc).sessions) := by
  refine ⟨rfl, ?_, ?_⟩
  · show (st.sessions.map fun s =>
        if s.id == capturedId then
          { s with messages := s.messages ++ [⟨msgId, Role.assistant, responseText oc⟩] }
        else s).find? (fun s => s.id == capturedId) =
      (st.sessions.find? (fun s => s.id == capturedId)).map
        (fun s => { s with messages := s.messages ++ [⟨msgId, Role.assistant, responseText oc⟩] })
    rw [List.find?_map]
    have hpred : ((fun (s : ChatSession) => s.id == capturedId) ∘
        (fun s => if s.id == capturedId then
          { s with messages := s.messages ++ [⟨msgId, Role.assistant, responseText oc⟩] }
        else s)) = (fun s => s.id == capturedId) := by
      funext s
      by_cases h : (s.id == capturedId) = true
      · simp [Function.comp, h, eq_of_beq h]
      · simp only [Function.comp]
        rw [if_neg (by simpa using h)]
    rw [hpred]
    cases hf : st.sessions.find? (fun s => s.id == capturedId) with
    | none => rfl
    | some s =>
      have hs' : (s.id == capturedId) = true :=
        @List.find?_some ChatSession (fun x => x.id == capturedId) s _ hf
      simp [hs', eq_of_beq hs']
  · intro s hs hne
    have hbeq : (s.id == capturedId) = false := by simp [hne]
    refine List.mem_map.mpr ⟨s, hs, ?_⟩
    simp [hbeq]

/-- C6 witness: with two sessions and the pointer switched from `"s1"`
to `"s2"` mid-flight, a transport-error response still lands in `"s1"`,
and `"s2"` is untouched. -/
theorem response_targets_captured_session_witness :
    sessionById (appendResponse (selectSession
        ⟨[⟨"s1", "A", [⟨"m0", Role.user, "hi"⟩], "t1"⟩, ⟨"s2", "B", [], "t2"⟩], some "s1"⟩
        "s2") "s1" "m1" SendOutcome.transportError) "s1" =
      (sessionById ⟨[⟨"s1", "A", [⟨"m0", Role.user, "hi"⟩], "t1"⟩, ⟨"s2", "B", [], "t2"⟩],
          some "s1"⟩ "s1").map
        (fun s => { s with
          messages := s.messages ++
            [⟨"m1", Role.assistant, responseText SendOutcome.transportError⟩] }) ∧
    (⟨"s2", "B", [], "t2"⟩ : ChatSession) ∈ (appendResponse (selectSession
        ⟨[⟨"s1", "A", [⟨"m0", Role.user, "hi"⟩], "t1"⟩, ⟨"s2", "B", [], "t2"⟩], some "s1"⟩
        "s2") "s1" "m1" SendOutcome.transportError).sessions :=
  ⟨(response_targets_captured_session
      ⟨[⟨"s1", "A", [⟨"m0", Role.user, "hi"⟩], "t1"⟩, ⟨"s2", "B", [], "t2"⟩], some "s1"⟩
      "s1" "s2" "m1" SendOutcome.transportError).2.1,
    (response_targets_captured_session
      ⟨[⟨"s1", "A", [⟨"m0", Role.user, "hi"⟩], "t1"⟩, ⟨"s2", "B", [], "t2"⟩], some "s1"⟩
      "s1" "s2" "m1" SendOutcome.transportError).2.2 ⟨"s2", "B", [], "t2"⟩ (by decide)
      (by decide)⟩

/-- Round trip for one message. -/
lemma messageOfJson?_roundtrip (m : Message) :
    messageOfJson? (messageToJson m) = some m := by
  cases m with
  | mk i r t => cases r <;> rfl

/-- Round trip for a message list. -/
lemma messagesOfJson?_roundtrip (l : List Message) :
    messagesOfJson? (l.map messageToJson) = some l := by
  induction l with
  | nil => rfl
  | cons m rest ih =>
    simp [messagesOfJson?, messageOfJson?_roundtrip, ih]

/-- Round trip for one session. -/
lemma sessionOfJson?_roundtrip (s : ChatSession) :
    sessionOfJson? (sessionToJson s) = some s := by
  cases s with
  | mk i t ms c =>
    simp [sessionToJson, sessionOfJson?, messagesOfJson?_roundtrip]

/-- Round trip for a session list. -/
lemma sessionListOfJson?_roundtrip (ss : List ChatSession) :
    sessionListOfJson? (ss.map sessionToJson) = some ss := by
  induction ss with
  | nil => rfl
  | cons s rest ih =>
    simp [sessionListOfJson?, sessionOfJson?_roundtrip, ih]

/-- C7: the startup initializer falls back to a single freshly created
empty session (default title, no messages) when the stored value is
missing, unparsable, or an empty list — never an error — and rehydrates a
previously serialized non-empty collection to the very same value, which
reads back as an equal collection (same ids, titles, message contents and
order, `createdAt` values). -/
theorem persistence_fallback_and_roundtrip (freshId now : String) (ss : List ChatSession)
    (h : ss ≠ []) :
    initSessionsJson none freshId now = sessionsToJson [freshSession freshId now] ∧
    initSessionsJson (some (Except.error ())) freshId now =
      sessionsToJson [freshSession freshId now] ∧
    initSessionsJson (some (Except.ok (sessionsToJson []))) freshId now =
      sessionsToJson [freshSession freshId now] ∧
    initSessionsJson (some (Except.ok (sessionsToJson ss))) freshId now = sessionsToJson ss ∧
    sessionsOfJson? (sessionsToJson ss) = some ss := by
  refine ⟨rfl, rfl, rfl, ?_, ?_⟩
  · have hpos : 0 < (ss.map sessionToJson).length := by
      rw [List.length_map]
      exact List.length_pos.mpr h
    simp only [initSessionsJson, sessionsToJson]
    rw [if_pos hpos]
  · simp [sessionsOfJson?, sessionsToJson, sessionListOfJson?_roundtrip]

/-- C7 witness: a concrete one-session collection with one message round
trips, and the three malformed stored values all seed a fresh session. -/
theorem persistence_fallback_and_roundtrip_witness :
    ([⟨"s1", "Hi", [⟨"m1", Role.user, "hi"⟩], "t1"⟩] : List ChatSession) ≠ [] ∧
    (initSessionsJson none "f1" "now" = sessionsToJson [freshSession "f1" "now"] ∧
      initSessionsJson (some (Except.error ())) "f1" "now" =
        sessionsToJson [freshSession "f1" "now"] ∧
      initSessionsJson (some (Except.ok (sessionsToJson []))) "f1" "now" =
        sessionsToJson [freshSession "f1" "now"] ∧
      initSessionsJson (some (Except.ok
          (sessionsToJson [⟨"s1", "Hi", [⟨"m1", Role.user, "hi"⟩], "t1"⟩]))) "f1" "now" =
        sessionsToJson [⟨"s1", "Hi", [⟨"m1", Role.user, "hi"⟩], "t1"⟩] ∧
      sessionsOfJson? (sessionsToJson [⟨"s1", "Hi", [⟨"m1", Role.user, "hi"⟩], "t1"⟩]) =
        some [⟨"s1", "Hi", [⟨"m1", Role.user, "hi"⟩], "t1"⟩]) :=
  ⟨by decide,
    persistence_fallback_and_roundtrip "f1" "now"
      [⟨"s1", "Hi", [⟨"m1", Role.user, "hi"⟩], "t1"⟩] (by decide)⟩

end RadiaChat
